import Mathlib

/-!
Verification development for the per-application log dispatch and batching
engine (tsuru app/log.go, vendored by yati) and its websocket ingestion
endpoint (api addLogs).

The Go code is shallowly embedded: each goroutine loop becomes a step
function on an explicit state, driven by a list of events that records the
schedule (which select branch fired); channels become lists; the
nondeterministic select in logDispatcher.Send becomes an explicit branch
parameter. Collaborators that live outside this repository (the database
driver, the pub/sub transport) are parameters or are modelled from the spec
where noted.
-/

/-- The Applog record flowing through the pipeline (app/log.go, type Applog
used throughout; fields per the spec data model: AppName, Source, Unit,
Message; the timestamp plays no role in any claim and is carried as a Nat). -/
structure Applog where
  appName : String
  source : String
  unit : String
  message : String
  date : Nat
deriving DecidableEq, Repr

/-- Capacity of the bulk buffer: make([]interface, 0, 100) in runFlusher
(log.go line 167); flush fires when len equals cap. -/
def bulkBufferCap : Nat := 100

/-- Capacity of the ingestion queue msgCh: make(chan Applog, 10000)
(log.go line 154). -/
def msgChCapacity : Nat := 10000

/-- One iteration of the select loop in appLogDispatcher.runFlusher
(log.go lines 175-197): either a message arrives on toFlush, the idle
timer t.C fires, or the done channel is closed. -/
inductive FlusherEvent where
  | msg (m : Applog)
  | timer
  | done
deriving DecidableEq, Repr

/-- State of the runFlusher goroutine: the bulk buffer, the batches already
passed to coll.Insert (in order), a count of t.Reset calls, the error the
goroutine pushed on errCh before returning (if any), and whether it returned
through the done branch. -/
structure FlusherState where
  buffer : List Applog
  flushes : List (List Applog)
  resets : Nat
  failed : Option String
  finished : Bool
deriving DecidableEq, Repr

/-- The flusher right after a successful db.LogConn: empty buffer, nothing
inserted yet, timer armed once at creation. -/
def initFlusher : FlusherState :=
  { buffer := [], flushes := [], resets := 0, failed := none, finished := false }

/-- One select iteration of runFlusher (log.go lines 175-197), translated
clause by clause. insertResult gives the outcome of the n-th coll.Insert
call (none = success), standing for the external storage driver. After the
goroutine has returned (finished or failed) further events are no-ops. -/
def flusherStep (insertResult : Nat → Option String) (s : FlusherState)
    (ev : FlusherEvent) : FlusherState :=
  if s.finished || s.failed.isSome then s
  else
    match ev with
    | .done => { s with finished := true }
    | .msg m =>
      let buf := s.buffer ++ [m]
      if buf.length = bulkBufferCap then
        match insertResult s.flushes.length with
        | some e => { s with buffer := buf, failed := some e }
        | none => { s with buffer := [], flushes := s.flushes ++ [buf] }
      else
        { s with buffer := buf, resets := s.resets + 1 }
    | .timer =>
      if s.buffer.isEmpty then s
      else
        match insertResult s.flushes.length with
        | some e => { s with failed := some e }
        | none => { s with buffer := [], flushes := s.flushes ++ [s.buffer] }

/-- Run the flusher over a schedule of select events. -/
def flusherRun (insertResult : Nat → Option String)
    (events : List FlusherEvent) : FlusherState :=
  events.foldl (flusherStep insertResult) initFlusher

/-- A storage driver whose bulk inserts always succeed. -/
def insertOk : Nat → Option String := fun _ => none

/-- The messages carried by a schedule, in arrival order. Because
runDBWriter (log.go lines 200-208) relays msgCh to toFlush one message at a
time in arrival order, this is exactly the sequence of entries sent to the
pipeline that reached the flusher. -/
def msgsOf (events : List FlusherEvent) : List Applog :=
  events.filterMap (fun ev =>
    match ev with
    | .msg m => some m
    | _ => none)

/-- Everything the flusher has accepted and not dropped: inserted batches in
order followed by the current buffer. -/
def flusherContent (s : FlusherState) : List Applog :=
  s.flushes.flatten ++ s.buffer

/-- A sample log entry for concrete runs. -/
def logA : Applog :=
  { appName := "myapp", source := "app", unit := "unit1", message := "hello", date := 1 }

example : flusherRun insertOk [.msg logA, .timer] =
    { buffer := [], flushes := [[logA]], resets := 1, failed := none, finished := false } := by
  decide

example : (flusherRun insertOk [.msg logA, .done]).flushes = [] := by decide

lemma msgsOf_cons (ev : FlusherEvent) (rest : List FlusherEvent) :
    msgsOf (ev :: rest) = msgsOf [ev] ++ msgsOf rest := by
  cases ev <;> simp [msgsOf]

lemma flusherStep_ok (s : FlusherState) (ev : FlusherEvent)
    (hf : s.failed = none) (hfin : s.finished = false) (hne : ev ≠ .done) :
    flusherContent (flusherStep insertOk s ev) = flusherContent s ++ msgsOf [ev] ∧
    (flusherStep insertOk s ev).failed = none ∧
    (flusherStep insertOk s ev).finished = false := by
  cases ev with
  | done => exact absurd rfl hne
  | msg m =>
    by_cases h : s.buffer.length + 1 = bulkBufferCap
    · simp [flusherStep, hf, hfin, h, insertOk, flusherContent, msgsOf]
    · simp [flusherStep, hf, hfin, h, insertOk, flusherContent, msgsOf]
  | timer =>
    by_cases h : s.buffer.isEmpty
    · simp [flusherStep, hf, hfin, h, flusherContent, msgsOf]
    · simp [flusherStep, hf, hfin, h, insertOk, flusherContent, msgsOf]

lemma flusherRun_go (events : List FlusherEvent) :
    ∀ s : FlusherState, s.failed = none → s.finished = false →
    (∀ ev ∈ events, ev ≠ FlusherEvent.done) →
    flusherContent (events.foldl (flusherStep insertOk) s) =
      flusherContent s ++ msgsOf events ∧
    (events.foldl (flusherStep insertOk) s).failed = none ∧
    (events.foldl (flusherStep insertOk) s).finished = false := by
  induction events with
  | nil => intro s hf hfin _; simp [msgsOf, hf, hfin]
  | cons ev rest ih =>
    intro s hf hfin hall
    have hne : ev ≠ FlusherEvent.done := hall ev (by simp)
    obtain ⟨h1, h2, h3⟩ := flusherStep_ok s ev hf hfin hne
    obtain ⟨g1, g2, g3⟩ := ih (flusherStep insertOk s ev) h2 h3
      (fun e he => hall e (by simp [he]))
    refine ⟨?_, g2, g3⟩
    rw [List.foldl_cons, g1, h1, msgsOf_cons ev rest, List.append_assoc]

lemma flusherRun_content (events : List FlusherEvent)
    (hd : FlusherEvent.done ∉ events) :
    flusherContent (flusherRun insertOk events) = msgsOf events ∧
    (flusherRun insertOk events).failed = none ∧
    (flusherRun insertOk events).finished = false := by
  have h := flusherRun_go events initFlusher rfl rfl
    (fun e he hne => hd (hne ▸ he))
  simpa [flusherRun, flusherContent, initFlusher] using h

lemma flusherStep_buflen (ir : Nat → Option String) (s : FlusherState)
    (ev : FlusherEvent) (h : s.failed = none → s.buffer.length < bulkBufferCap) :
    (flusherStep ir s ev).failed = none →
    (flusherStep ir s ev).buffer.length < bulkBufferCap := by
  by_cases hdead : s.finished || s.failed.isSome
  · simpa [flusherStep, hdead] using h
  · have hf : s.failed = none := by
      rcases hs : s.failed with _ | e
      · rfl
      · simp [hs] at hdead
    have hb := h hf
    cases ev with
    | done => simpa [flusherStep, hdead] using h
    | msg m =>
      by_cases hcap : (s.buffer ++ [m]).length = bulkBufferCap
      · rcases hir : ir s.flushes.length with _ | e
        · intro _; simp [flusherStep, hdead, hcap, hir, bulkBufferCap]
        · simp [flusherStep, hdead, hcap, hir]
      · intro _
        simp only [flusherStep, hdead, Bool.false_eq_true, if_false, hcap, if_neg hcap]
        have hlen : (s.buffer ++ [m]).length = s.buffer.length + 1 := by simp
        have hle : s.buffer.length + 1 ≤ bulkBufferCap := hb
        rw [hlen] at hcap ⊢
        exact Nat.lt_of_le_of_ne hle hcap
    | timer =>
      by_cases hemp : s.buffer.isEmpty
      · simpa [flusherStep, hdead, hemp] using h
      · rcases hir : ir s.flushes.length with _ | e
        · intro _; simp [flusherStep, hdead, hemp, hir, bulkBufferCap]
        · simp [flusherStep, hdead, hemp, hir]

lemma flusherRun_buflen (ir : Nat → Option String) (events : List FlusherEvent) :
    (flusherRun ir events).failed = none →
    (flusherRun ir events).buffer.length < bulkBufferCap := by
  suffices h : ∀ s : FlusherState, (s.failed = none → s.buffer.length < bulkBufferCap) →
      ((events.foldl (flusherStep ir) s).failed = none →
       (events.foldl (flusherStep ir) s).buffer.length < bulkBufferCap) by
    exact h initFlusher (fun _ => by simp [initFlusher, bulkBufferCap])
  induction events with
  | nil => intro s hs; exact hs
  | cons ev rest ih =>
    intro s hs
    exact ih (flusherStep ir s ev) (flusherStep_buflen ir s ev hs)

lemma flusherRun_append (ir : Nat → Option String) (evs more : List FlusherEvent) :
    flusherRun ir (evs ++ more) = more.foldl (flusherStep ir) (flusherRun ir evs) := by
  simp [flusherRun, List.foldl_append]

/-- C1: the claim states that on a clean Stop the batches passed to bulk
insert, concatenated in flush order, equal the input sequence. What holds in
the code (proved here) is: with storage always succeeding and before the done
signal, concatenated batches followed by the current buffer equal the input in
order (no reordering, no loss while running); the done branch of runFlusher
(log.go line 178-179) returns without flushing, so the done event preserves
the already-flushed batches and discards the buffer, and only a schedule in
which a timer expiry drains the buffer before done flushes the entire input.
The claim as stated fails (see the counterexample): a clean Stop taken with a
non-empty buffer loses the final partial batch. -/
theorem claim1_flush_order (events : List FlusherEvent)
    (hd : FlusherEvent.done ∉ events) :
    (flusherRun insertOk events).flushes.flatten ++ (flusherRun insertOk events).buffer
        = msgsOf events ∧
    (flusherRun insertOk (events ++ [FlusherEvent.done])).flushes
        = (flusherRun insertOk events).flushes ∧
    (flusherRun insertOk (events ++ [FlusherEvent.done])).finished = true ∧
    (flusherRun insertOk (events ++ [FlusherEvent.timer, FlusherEvent.done])).flushes.flatten
        = msgsOf events := by
  obtain ⟨hc, hf, hfin⟩ := flusherRun_content events hd
  have hc2 : (flusherRun insertOk events).flushes.flatten ++ (flusherRun insertOk events).buffer
      = msgsOf events := by simpa [flusherContent] using hc
  refine ⟨hc2, ?_, ?_, ?_⟩
  · rw [flusherRun_append]
    simp [flusherStep, hf, hfin]
  · rw [flusherRun_append]
    simp [flusherStep, hf, hfin]
  · rw [flusherRun_append]
    by_cases hemp : (flusherRun insertOk events).buffer.isEmpty
    · have hb : (flusherRun insertOk events).buffer = [] := by
        simpa using hemp
      simp only [List.foldl_cons, List.foldl_nil]
      simp [flusherStep, hf, hfin, hemp]
      rw [← hc2, hb, List.append_nil]
    · simp only [List.foldl_cons, List.foldl_nil]
      simp [flusherStep, hf, hfin, hemp, insertOk]
      rw [← hc2]

/-- C1 counterexample: one entry followed by a clean Stop in which the done
signal is selected before the idle timer fires (the done channel is ready
immediately, the timer only 500ms after the entry): runFlusher returns through
the done branch, the run is a completed clean shutdown, and the concatenated
batches are empty rather than the one-entry input: the entry is lost. -/
theorem claim1_counterexample :
    (flusherRun insertOk [FlusherEvent.msg logA, FlusherEvent.done]).finished = true ∧
    (flusherRun insertOk [FlusherEvent.msg logA, FlusherEvent.done]).flushes.flatten ≠
      msgsOf [FlusherEvent.msg logA, FlusherEvent.done] := by
  decide

/-- Witness for claim1_flush_order at the concrete schedule
[msg logA, timer]. -/
theorem claim1_flush_order_witness :
    (flusherRun insertOk [FlusherEvent.msg logA, FlusherEvent.timer]).flushes.flatten ++
        (flusherRun insertOk [FlusherEvent.msg logA, FlusherEvent.timer]).buffer
        = msgsOf [FlusherEvent.msg logA, FlusherEvent.timer] ∧
    (flusherRun insertOk ([FlusherEvent.msg logA, FlusherEvent.timer] ++ [FlusherEvent.done])).flushes
        = (flusherRun insertOk [FlusherEvent.msg logA, FlusherEvent.timer]).flushes ∧
    (flusherRun insertOk ([FlusherEvent.msg logA, FlusherEvent.timer] ++ [FlusherEvent.done])).finished = true ∧
    (flusherRun insertOk ([FlusherEvent.msg logA, FlusherEvent.timer] ++ [FlusherEvent.timer, FlusherEvent.done])).flushes.flatten
        = msgsOf [FlusherEvent.msg logA, FlusherEvent.timer] :=
  claim1_flush_order [FlusherEvent.msg logA, FlusherEvent.timer] (by decide)

/-- C3: in any reachable state of the flusher (storage succeeding, shutdown
not yet signalled) the bulk buffer holds fewer than 100 entries; accepting an
entry triggers a flush exactly when it is the 100th buffered entry (the
flush happens in the same select iteration, without a timer event), the
flushed batch is exactly the 100 buffered entries, and an entry that is not
the 100th triggers no insert. Hence no size-triggered bulk insert contains
more than 100 entries (log.go lines 180-196). -/
theorem claim3_size_flush (events : List FlusherEvent) (m : Applog)
    (hd : FlusherEvent.done ∉ events) :
    (flusherRun insertOk events).buffer.length < bulkBufferCap ∧
    ((flusherRun insertOk events).buffer.length + 1 = bulkBufferCap →
      (flusherStep insertOk (flusherRun insertOk events) (.msg m)).flushes
        = (flusherRun insertOk events).flushes ++ [(flusherRun insertOk events).buffer ++ [m]] ∧
      ((flusherRun insertOk events).buffer ++ [m]).length = bulkBufferCap) ∧
    ((flusherRun insertOk events).buffer.length + 1 ≠ bulkBufferCap →
      (flusherStep insertOk (flusherRun insertOk events) (.msg m)).flushes
        = (flusherRun insertOk events).flushes) := by
  obtain ⟨hc, hf, hfin⟩ := flusherRun_content events hd
  refine ⟨flusherRun_buflen insertOk events hf, ?_, ?_⟩
  · intro h
    constructor
    · simp [flusherStep, hf, hfin, h, insertOk]
    · simpa using h
  · intro h
    simp [flusherStep, hf, hfin, h, insertOk]

/-- Witness for claim3_size_flush: after 99 entries the buffer holds 99
entries and the 100th entry flushes a batch of exactly 100. -/
theorem claim3_size_flush_witness :
    (flusherRun insertOk (List.replicate 99 (FlusherEvent.msg logA))).buffer.length < bulkBufferCap ∧
    ((flusherRun insertOk (List.replicate 99 (FlusherEvent.msg logA))).buffer.length + 1 = bulkBufferCap →
      (flusherStep insertOk (flusherRun insertOk (List.replicate 99 (FlusherEvent.msg logA))) (.msg logA)).flushes
        = (flusherRun insertOk (List.replicate 99 (FlusherEvent.msg logA))).flushes
            ++ [(flusherRun insertOk (List.replicate 99 (FlusherEvent.msg logA))).buffer ++ [logA]] ∧
      ((flusherRun insertOk (List.replicate 99 (FlusherEvent.msg logA))).buffer ++ [logA]).length = bulkBufferCap) ∧
    ((flusherRun insertOk (List.replicate 99 (FlusherEvent.msg logA))).buffer.length + 1 ≠ bulkBufferCap →
      (flusherStep insertOk (flusherRun insertOk (List.replicate 99 (FlusherEvent.msg logA))) (.msg logA)).flushes
        = (flusherRun insertOk (List.replicate 99 (FlusherEvent.msg logA))).flushes) :=
  claim3_size_flush (List.replicate 99 (FlusherEvent.msg logA)) logA (by decide)

/-- C4 (amended): the code resets the idle timer only for an accepted entry
that does not fill the buffer (log.go lines 183-185): an entry leaving the
buffer below 100 resets the timer, while the 100th entry triggers the flush
without resetting it. A timer expiry with a non-empty buffer triggers exactly
one flush consisting of exactly the buffered entries; a timer expiry with an
empty buffer triggers no flush and changes nothing. The original claim that
every accepted entry resets the timer fails on the 100th entry (see the
counterexample). -/
theorem claim4_idle_timer (events : List FlusherEvent) (m : Applog)
    (hd : FlusherEvent.done ∉ events) :
    ((flusherRun insertOk events).buffer.length + 1 ≠ bulkBufferCap →
      (flusherStep insertOk (flusherRun insertOk events) (.msg m)).resets
        = (flusherRun insertOk events).resets + 1) ∧
    ((flusherRun insertOk events).buffer.length + 1 = bulkBufferCap →
      (flusherStep insertOk (flusherRun insertOk events) (.msg m)).resets
        = (flusherRun insertOk events).resets) ∧
    ((flusherRun insertOk events).buffer ≠ [] →
      (flusherStep insertOk (flusherRun insertOk events) .timer).flushes
        = (flusherRun insertOk events).flushes ++ [(flusherRun insertOk events).buffer] ∧
      (flusherStep insertOk (flusherRun insertOk events) .timer).buffer = []) ∧
    ((flusherRun insertOk events).buffer = [] →
      flusherStep insertOk (flusherRun insertOk events) .timer = flusherRun insertOk events) := by
  obtain ⟨hc, hf, hfin⟩ := flusherRun_content events hd
  refine ⟨?_, ?_, ?_, ?_⟩
  · intro h
    simp [flusherStep, hf, hfin, h, insertOk]
  · intro h
    simp [flusherStep, hf, hfin, h, insertOk]
  · intro h
    have hemp : (flusherRun insertOk events).buffer.isEmpty = false := by
      simpa using h
    constructor
    · simp [flusherStep, hf, hfin, hemp, insertOk]
    · simp [flusherStep, hf, hfin, hemp, insertOk]
  · intro h
    have hemp : (flusherRun insertOk events).buffer.isEmpty = true := by
      simp [h]
    simp [flusherStep, hf, hfin, hemp]

set_option maxRecDepth 4000 in
/-- C4 counterexample: feed exactly 100 entries. All 100 are accepted, but
the timer is reset only 99 times: the 100th entry (the one that fills the
buffer) does not reset the idle timer, contradicting the claim that every
accepted entry resets it. -/
theorem claim4_counterexample :
    (msgsOf (List.replicate 100 (FlusherEvent.msg logA))).length = 100 ∧
    (flusherRun insertOk (List.replicate 100 (FlusherEvent.msg logA))).resets = 99 ∧
    (flusherRun insertOk (List.replicate 100 (FlusherEvent.msg logA))).resets ≠ 100 := by
  refine ⟨by decide, by decide, by decide⟩

/-- Witness for claim4_idle_timer: after one entry the buffer is non-empty,
a further entry resets the timer, and a timer expiry flushes exactly the
buffered entry. -/
theorem claim4_idle_timer_witness :
    ((flusherRun insertOk [FlusherEvent.msg logA]).buffer.length + 1 ≠ bulkBufferCap →
      (flusherStep insertOk (flusherRun insertOk [FlusherEvent.msg logA]) (.msg logA)).resets
        = (flusherRun insertOk [FlusherEvent.msg logA]).resets + 1) ∧
    ((flusherRun insertOk [FlusherEvent.msg logA]).buffer.length + 1 = bulkBufferCap →
      (flusherStep insertOk (flusherRun insertOk [FlusherEvent.msg logA]) (.msg logA)).resets
        = (flusherRun insertOk [FlusherEvent.msg logA]).resets) ∧
    ((flusherRun insertOk [FlusherEvent.msg logA]).buffer ≠ [] →
      (flusherStep insertOk (flusherRun insertOk [FlusherEvent.msg logA]) .timer).flushes
        = (flusherRun insertOk [FlusherEvent.msg logA]).flushes
            ++ [(flusherRun insertOk [FlusherEvent.msg logA]).buffer] ∧
      (flusherStep insertOk (flusherRun insertOk [FlusherEvent.msg logA]) .timer).buffer = []) ∧
    ((flusherRun insertOk [FlusherEvent.msg logA]).buffer = [] →
      flusherStep insertOk (flusherRun insertOk [FlusherEvent.msg logA]) .timer
        = flusherRun insertOk [FlusherEvent.msg logA]) :=
  claim4_idle_timer [FlusherEvent.msg logA] logA (by decide)

/-- State of one appLogDispatcher as seen by the logDispatcher (log.go lines
143-162): the unconsumed contents of the buffered ingestion channel msgCh,
the error value the runFlusher goroutine has placed on errCh (none while
healthy; some err once a db.LogConn or coll.Insert failure made runFlusher
return, log.go lines 168-171 and 190-194), and the batches already inserted. -/
structure AppPipelineSt where
  queue : List Applog
  pending : Option String
  flushes : List (List Applog)
deriving DecidableEq, Repr

/-- newAppLogDispatcher (log.go lines 151-162). The first thing runFlusher
does is open the durable-storage connection (db.LogConn, an external
collaborator): connResult is its outcome. On failure runFlusher immediately
pushes the error on errCh and returns, so the pipeline starts with that
stored error, an empty queue, and nothing flushed. -/
def newAppLogDispatcher (connResult : Option String) : AppPipelineSt :=
  { queue := [], pending := connResult, flushes := [] }

/-- The logDispatcher routing table (log.go lines 99-107), as the explicit
association list it iterates over; Go map iteration order is abstracted as
the list order. -/
structure LogDispatcher where
  dispatchers : List (String × AppPipelineSt)
deriving DecidableEq, Repr

def lookupDispatcher (l : List (String × AppPipelineSt)) (a : String) :
    Option AppPipelineSt :=
  match l with
  | [] => none
  | (n, p) :: rest => if n = a then some p else lookupDispatcher rest a

def setDispatcher (l : List (String × AppPipelineSt)) (a : String)
    (p : AppPipelineSt) : List (String × AppPipelineSt) :=
  match l with
  | [] => [(a, p)]
  | (n, q) :: rest =>
    if n = a then (a, p) :: rest else (n, q) :: setDispatcher rest a p

def removeDispatcher (l : List (String × AppPipelineSt)) (a : String) :
    List (String × AppPipelineSt) :=
  match l with
  | [] => []
  | (n, q) :: rest =>
    if n = a then removeDispatcher rest a else (n, q) :: removeDispatcher rest a

/-- Which case of the select in logDispatcher.Send (log.go lines 116-122)
fires when both are ready; Go picks one of the ready cases at random, so the
choice is an explicit parameter of the model. -/
inductive SendBranch where
  | enqueue
  | recvErr
deriving DecidableEq, Repr

/-- The select statement of logDispatcher.Send (log.go lines 116-122) on a
given pipeline. With no pending error the errCh receive blocks, so the send
on msgCh is the only case that can fire (Send blocks until the writer has
drained space; the buffered-channel occupancy bound is what matters for the
failed pipeline, whose writer stalls, so only there is the capacity checked).
With a pending error both cases are ready and branch decides, except that a
full msgCh leaves the errCh receive as the only ready case: then Send closes
msgCh, deletes the pipeline from the routing table and returns the error. -/
def sendSelect (d : LogDispatcher) (appName : String) (appD : AppPipelineSt)
    (msg : Applog) (branch : SendBranch) : LogDispatcher × Option String :=
  match appD.pending with
  | none =>
    (⟨setDispatcher d.dispatchers appName { appD with queue := appD.queue ++ [msg] }⟩, none)
  | some err =>
    match branch with
    | .recvErr => (⟨removeDispatcher d.dispatchers appName⟩, some err)
    | .enqueue =>
      if appD.queue.length < msgChCapacity then
        (⟨setDispatcher d.dispatchers appName { appD with queue := appD.queue ++ [msg] }⟩, none)
      else
        (⟨removeDispatcher d.dispatchers appName⟩, some err)

/-- logDispatcher.Send (log.go lines 109-124): look up the pipeline for the
application name of the entry, lazily creating it (connResult is the outcome of
the db.LogConn the fresh runFlusher performs), then run the select. -/
def dispatcherSend (d : LogDispatcher) (msg : Applog) (connResult : Option String)
    (branch : SendBranch) : LogDispatcher × Option String :=
  match lookupDispatcher d.dispatchers msg.appName with
  | none => sendSelect d msg.appName (newAppLogDispatcher connResult) msg branch
  | some appD => sendSelect d msg.appName appD msg branch

/-- Error aggregation of logDispatcher.Stop (log.go lines 132-138):
fmt.Errorf joins the previous combined error and the next one with a comma. -/
def combineErr (acc : Option String) (e : String) : Option String :=
  match acc with
  | none => some e
  | some f => some (f ++ ", " ++ e)

/-- logDispatcher.Stop (log.go lines 126-141): every tracked pipeline is
removed from the table, its msgCh closed and its final status received from
errCh; for a pipeline whose flusher already failed that is the stored error,
for a healthy pipeline the writer drains and the closed errCh yields nil
(clean shutdown; flush outcomes during the drain are part of pending).
Non-nil statuses are folded with combineErr; the table is left empty. -/
def dispatcherStop (d : LogDispatcher) : LogDispatcher × Option String :=
  (⟨[]⟩, d.dispatchers.foldl
    (fun acc pr =>
      match pr.2.pending with
      | none => acc
      | some e => combineErr acc e) none)

lemma lookupDispatcher_set (l : List (String × AppPipelineSt)) (a : String)
    (p : AppPipelineSt) : lookupDispatcher (setDispatcher l a p) a = some p := by
  induction l with
  | nil => simp [setDispatcher, lookupDispatcher]
  | cons pr rest ih =>
    by_cases h : pr.1 = a
    · simp [setDispatcher, lookupDispatcher, h]
    · simp [setDispatcher, lookupDispatcher, h, ih]

lemma lookupDispatcher_remove (l : List (String × AppPipelineSt)) (a : String) :
    lookupDispatcher (removeDispatcher l a) a = none := by
  induction l with
  | nil => simp [removeDispatcher, lookupDispatcher]
  | cons pr rest ih =>
    by_cases h : pr.1 = a
    · simp [removeDispatcher, h, ih]
    · simp [removeDispatcher, lookupDispatcher, h, ih]

/-- A second sample log entry for the same application. -/
def logB : Applog :=
  { appName := "myapp", source := "app", unit := "unit2", message := "world", date := 2 }

lemma stopFold_eq (l : List (String × AppPipelineSt)) :
    ∀ acc : Option String,
    l.foldl (fun acc pr =>
        match pr.2.pending with
        | none => acc
        | some e => combineErr acc e) acc
      = (l.filterMap (fun pr => pr.2.pending)).foldl combineErr acc := by
  induction l with
  | nil => intro acc; rfl
  | cons pr rest ih =>
    intro acc
    rcases hp : pr.2.pending with _ | e
    · simp [hp, ih]
    · simp [hp, ih]

lemma combineErr_foldl_some (l : List String) :
    ∀ x : String, ∃ y : String, l.foldl combineErr (some x) = some y := by
  induction l with
  | nil => intro x; exact ⟨x, rfl⟩
  | cons e rest ih =>
    intro x
    simpa [combineErr] using ih (x ++ ", " ++ e)

lemma dispatcherStop_none_iff (d : LogDispatcher) :
    (dispatcherStop d).2 = none ↔ ∀ pr ∈ d.dispatchers, pr.2.pending = none := by
  rw [show (dispatcherStop d).2
      = (d.dispatchers.filterMap (fun pr => pr.2.pending)).foldl combineErr none
    from stopFold_eq d.dispatchers none]
  constructor
  · intro h pr hpr
    rcases hp : pr.2.pending with _ | e
    · rfl
    · exfalso
      have hmem : e ∈ d.dispatchers.filterMap (fun pr => pr.2.pending) := by
        exact List.mem_filterMap.mpr ⟨pr, hpr, hp⟩
      rcases List.mem_iff_append.mp hmem with ⟨l1, l2, heq⟩
      rw [heq, List.foldl_append] at h
      rcases combineErr_foldl_some l2 ((l1.foldl combineErr none).elim e (fun f => f ++ ", " ++ e)) with ⟨y, hy⟩
      rcases hacc : l1.foldl combineErr none with _ | f
      · simp [List.foldl_cons, hacc, combineErr] at h
        rcases combineErr_foldl_some l2 e with ⟨y2, hy2⟩
        simp [hy2] at h
      · simp [List.foldl_cons, hacc, combineErr] at h
        rcases combineErr_foldl_some l2 (f ++ ", " ++ e) with ⟨y2, hy2⟩
        simp [hy2] at h
  · intro h
    have : d.dispatchers.filterMap (fun pr => pr.2.pending) = [] := by
      refine List.filterMap_eq_nil_iff.mpr ?_
      intro pr hpr
      exact h pr hpr
    rw [this]
    rfl

/-- C2 counterexample: application myapp has a pipeline whose flusher died
with a stored insert error and whose queue already holds one entry. The very
next Send for that application, with the select (log.go lines 116-122)
picking the ready msgCh case, returns nil - not the stored error - and the
routing table still holds the same failed pipeline (now with two queued
entries and the error still pending), not a brand-new pipeline with empty
history: both disjuncts of the claim fail, and the entry was accepted into a
pipeline that will never flush it. -/
theorem claim2_counterexample :
    (dispatcherSend
        ⟨[("myapp", { queue := [logA], pending := some "insert error", flushes := [] })]⟩
        logB none SendBranch.enqueue).2 = none ∧
    lookupDispatcher
        (dispatcherSend
          ⟨[("myapp", { queue := [logA], pending := some "insert error", flushes := [] })]⟩
          logB none SendBranch.enqueue).1.dispatchers "myapp"
      = some { queue := [logA, logB], pending := some "insert error", flushes := [] } ∧
    ({ queue := [logA, logB], pending := some "insert error", flushes := [] } : AppPipelineSt)
      ≠ newAppLogDispatcher none := by
  refine ⟨by decide, by decide, by decide⟩

/-- C2 (amended): after a persistence failure stores an error in a pipeline,
a Send for that application taking the errCh branch returns the stored error
and removes the pipeline from the routing table; once removed it is never
reused - the following Send for that name creates a brand-new pipeline whose
only history is the entry just sent. A Send taking the msgCh branch instead
(possible while the queue is below its 10000 capacity) returns nil without
surfacing the error and leaves the failed pipeline in place; once the queue
is full the msgCh case can no longer fire and the error is necessarily
surfaced. The original claim that the next Send either returns the error or
starts a brand-new pipeline fails on the msgCh branch (see the
counterexample). -/
theorem claim2_failure_surfacing (d : LogDispatcher) (a : String)
    (p : AppPipelineSt) (m m2 : Applog) (e : String) (cr : Option String)
    (hl : lookupDispatcher d.dispatchers a = some p) (hp : p.pending = some e)
    (hm : m.appName = a) (hm2 : m2.appName = a) :
    (dispatcherSend d m cr SendBranch.recvErr).2 = some e ∧
    lookupDispatcher (dispatcherSend d m cr SendBranch.recvErr).1.dispatchers a = none ∧
    (∀ br : SendBranch,
      lookupDispatcher
          (dispatcherSend (dispatcherSend d m cr SendBranch.recvErr).1 m2 none br).1.dispatchers a
        = some { queue := [m2], pending := none, flushes := [] }) ∧
    (p.queue.length < msgChCapacity →
      (dispatcherSend d m cr SendBranch.enqueue).2 = none ∧
      lookupDispatcher (dispatcherSend d m cr SendBranch.enqueue).1.dispatchers a
        = some { p with queue := p.queue ++ [m] }) ∧
    (¬ p.queue.length < msgChCapacity →
      (dispatcherSend d m cr SendBranch.enqueue).2 = some e ∧
      lookupDispatcher (dispatcherSend d m cr SendBranch.enqueue).1.dispatchers a = none) := by
  have hlm : lookupDispatcher d.dispatchers m.appName = some p := by rw [hm]; exact hl
  refine ⟨?_, ?_, ?_, ?_, ?_⟩
  · simp [dispatcherSend, hm, hl, hlm, sendSelect, hp]
  · simp [dispatcherSend, hm, hl, hlm, sendSelect, hp, lookupDispatcher_remove]
  · intro br
    have hrm1 : (dispatcherSend d m cr SendBranch.recvErr).1
        = ⟨removeDispatcher d.dispatchers a⟩ := by
      simp [dispatcherSend, hm, hl, hlm, sendSelect, hp]
    have hl2a : lookupDispatcher (removeDispatcher d.dispatchers a) a = none :=
      lookupDispatcher_remove d.dispatchers a
    rw [hrm1]
    simp [dispatcherSend, hm2, hl2a, sendSelect, newAppLogDispatcher, lookupDispatcher_set]
  · intro hcap
    constructor
    · simp [dispatcherSend, hm, hl, hlm, sendSelect, hp, hcap]
    · simp [dispatcherSend, hm, hl, hlm, sendSelect, hp, hcap, lookupDispatcher_set]
  · intro hcap
    constructor
    · simp [dispatcherSend, hm, hl, hlm, sendSelect, hp, hcap]
    · simp [dispatcherSend, hm, hl, hlm, sendSelect, hp, hcap, lookupDispatcher_remove]

/-- Witness for claim2_failure_surfacing at a concrete one-application
dispatcher whose pipeline carries a stored error. -/
theorem claim2_failure_surfacing_witness :
    (dispatcherSend ⟨[("myapp", { queue := [], pending := some "boom", flushes := [] })]⟩
        logA none SendBranch.recvErr).2 = some "boom" ∧
    lookupDispatcher
        (dispatcherSend ⟨[("myapp", { queue := [], pending := some "boom", flushes := [] })]⟩
          logA none SendBranch.recvErr).1.dispatchers "myapp" = none ∧
    (∀ br : SendBranch,
      lookupDispatcher
          (dispatcherSend
            (dispatcherSend ⟨[("myapp", { queue := [], pending := some "boom", flushes := [] })]⟩
              logA none SendBranch.recvErr).1 logB none br).1.dispatchers "myapp"
        = some { queue := [logB], pending := none, flushes := [] }) ∧
    (({ queue := [], pending := some "boom", flushes := [] } : AppPipelineSt).queue.length < msgChCapacity →
      (dispatcherSend ⟨[("myapp", { queue := [], pending := some "boom", flushes := [] })]⟩
          logA none SendBranch.enqueue).2 = none ∧
      lookupDispatcher
          (dispatcherSend ⟨[("myapp", { queue := [], pending := some "boom", flushes := [] })]⟩
            logA none SendBranch.enqueue).1.dispatchers "myapp"
        = some { ({ queue := [], pending := some "boom", flushes := [] } : AppPipelineSt) with
                  queue := ({ queue := [], pending := some "boom", flushes := [] } : AppPipelineSt).queue ++ [logA] }) ∧
    (¬ ({ queue := [], pending := some "boom", flushes := [] } : AppPipelineSt).queue.length < msgChCapacity →
      (dispatcherSend ⟨[("myapp", { queue := [], pending := some "boom", flushes := [] })]⟩
          logA none SendBranch.enqueue).2 = some "boom" ∧
      lookupDispatcher
          (dispatcherSend ⟨[("myapp", { queue := [], pending := some "boom", flushes := [] })]⟩
            logA none SendBranch.enqueue).1.dispatchers "myapp" = none) :=
  claim2_failure_surfacing
    ⟨[("myapp", { queue := [], pending := some "boom", flushes := [] })]⟩
    "myapp" { queue := [], pending := some "boom", flushes := [] }
    logA logB "boom" none (by decide) rfl rfl rfl

/-- C5: logDispatcher.Stop retires every tracked pipeline (the table is left
empty), collects every non-nil final pipeline status into one combined error
(joined in iteration order with commas, log.go line 136), and returns nil if
and only if every pipeline shut down cleanly. With two applications of which
exactly one failed, the returned error is exactly the error of that pipeline - it
mentions the other only when both failed, in which case both errors appear
joined. -/
theorem claim5_stop_aggregation (d : LogDispatcher) (a b : String)
    (pa pb : AppPipelineSt) (h2 : d.dispatchers = [(a, pa), (b, pb)]) :
    (∀ d2 : LogDispatcher,
      ((dispatcherStop d2).2 = none ↔ ∀ pr ∈ d2.dispatchers, pr.2.pending = none)) ∧
    (dispatcherStop d).1.dispatchers = [] ∧
    (∀ ea, pa.pending = some ea → pb.pending = none →
      (dispatcherStop d).2 = some ea) ∧
    (∀ eb, pa.pending = none → pb.pending = some eb →
      (dispatcherStop d).2 = some eb) ∧
    (∀ ea eb, pa.pending = some ea → pb.pending = some eb →
      (dispatcherStop d).2 = some (ea ++ ", " ++ eb)) := by
  refine ⟨dispatcherStop_none_iff, rfl, ?_, ?_, ?_⟩
  · intro ea hpa hpb
    simp [dispatcherStop, h2, hpa, hpb, combineErr]
  · intro eb hpa hpb
    simp [dispatcherStop, h2, hpa, hpb, combineErr]
  · intro ea eb hpa hpb
    simp [dispatcherStop, h2, hpa, hpb, combineErr]

/-- Witness for claim5_stop_aggregation at a concrete two-application
dispatcher with one failed and one clean pipeline. -/
theorem claim5_stop_aggregation_witness :
    (∀ d2 : LogDispatcher,
      ((dispatcherStop d2).2 = none ↔ ∀ pr ∈ d2.dispatchers, pr.2.pending = none)) ∧
    (dispatcherStop ⟨[("app1", { queue := [], pending := some "EA", flushes := [] }),
        ("app2", { queue := [], pending := none, flushes := [] })]⟩).1.dispatchers = [] ∧
    (∀ ea, ({ queue := [], pending := some "EA", flushes := [] } : AppPipelineSt).pending = some ea →
      ({ queue := [], pending := none, flushes := [] } : AppPipelineSt).pending = none →
      (dispatcherStop ⟨[("app1", { queue := [], pending := some "EA", flushes := [] }),
          ("app2", { queue := [], pending := none, flushes := [] })]⟩).2 = some ea) ∧
    (∀ eb, ({ queue := [], pending := some "EA", flushes := [] } : AppPipelineSt).pending = none →
      ({ queue := [], pending := none, flushes := [] } : AppPipelineSt).pending = some eb →
      (dispatcherStop ⟨[("app1", { queue := [], pending := some "EA", flushes := [] }),
          ("app2", { queue := [], pending := none, flushes := [] })]⟩).2 = some eb) ∧
    (∀ ea eb, ({ queue := [], pending := some "EA", flushes := [] } : AppPipelineSt).pending = some ea →
      ({ queue := [], pending := none, flushes := [] } : AppPipelineSt).pending = some eb →
      (dispatcherStop ⟨[("app1", { queue := [], pending := some "EA", flushes := [] }),
          ("app2", { queue := [], pending := none, flushes := [] })]⟩).2 = some (ea ++ ", " ++ eb)) :=
  claim5_stop_aggregation
    ⟨[("app1", { queue := [], pending := some "EA", flushes := [] }),
      ("app2", { queue := [], pending := none, flushes := [] })]⟩
    "app1" "app2"
    { queue := [], pending := some "EA", flushes := [] }
    { queue := [], pending := none, flushes := [] } rfl

/-- C10: when db.LogConn fails as the flusher of the pipeline starts (log.go
lines 168-171), the pipeline carries that connection error as its stored
error from creation, before any entry has been accepted into the batch or
flushed; no bulk insert ever happens (the flusher returned), and the stored
error is surfaced on a subsequent Send taking the errCh branch and on Stop.
An entry enqueued into such a pipeline never reaches storage: its flushes
stay empty. -/
theorem claim10_conn_failure (e : String) (a : String) (m : Applog)
    (hm : m.appName = a) :
    (newAppLogDispatcher (some e)).pending = some e ∧
    (newAppLogDispatcher (some e)).flushes = [] ∧
    (newAppLogDispatcher (some e)).queue = [] ∧
    (dispatcherStop ⟨[(a, newAppLogDispatcher (some e))]⟩).2 = some e ∧
    (dispatcherSend ⟨[(a, newAppLogDispatcher (some e))]⟩ m none SendBranch.recvErr).2
      = some e ∧
    (∀ p2 : AppPipelineSt,
      lookupDispatcher
          (dispatcherSend ⟨[(a, newAppLogDispatcher (some e))]⟩ m none SendBranch.enqueue).1.dispatchers a
        = some p2 → p2.flushes = []) := by
  refine ⟨rfl, rfl, rfl, ?_, ?_, ?_⟩
  · simp [dispatcherStop, newAppLogDispatcher, combineErr]
  · simp [dispatcherSend, hm, lookupDispatcher, sendSelect, newAppLogDispatcher]
  · intro p2 hp2
    have hq : ({ queue := [m], pending := some e, flushes := [] } : AppPipelineSt).queue.length
        < msgChCapacity := by simp [msgChCapacity]
    simp [dispatcherSend, hm, lookupDispatcher, sendSelect, newAppLogDispatcher,
      msgChCapacity, setDispatcher] at hp2
    rw [← hp2]

/-- Witness for claim10_conn_failure at a concrete connection error. -/
theorem claim10_conn_failure_witness :
    (newAppLogDispatcher (some "no reachable servers")).pending = some "no reachable servers" ∧
    (newAppLogDispatcher (some "no reachable servers")).flushes = [] ∧
    (newAppLogDispatcher (some "no reachable servers")).queue = [] ∧
    (dispatcherStop ⟨[("myapp", newAppLogDispatcher (some "no reachable servers"))]⟩).2
      = some "no reachable servers" ∧
    (dispatcherSend ⟨[("myapp", newAppLogDispatcher (some "no reachable servers"))]⟩
        logA none SendBranch.recvErr).2 = some "no reachable servers" ∧
    (∀ p2 : AppPipelineSt,
      lookupDispatcher
          (dispatcherSend ⟨[("myapp", newAppLogDispatcher (some "no reachable servers"))]⟩
            logA none SendBranch.enqueue).1.dispatchers "myapp"
        = some p2 → p2.flushes = []) :=
  claim10_conn_failure "no reachable servers" "myapp" logA rfl

/-- logQueueName (log.go lines 25-27): the live topic name is the fixed
prefix followed by the application name. -/
def logQueueName (appName : String) : String := "pubsub:" ++ appName

/-- The filter test of the forwarding goroutine in NewLogListener (log.go
lines 52-53): each of Source and Unit matches when the corresponding filter
field is empty or equal to the field of the decoded message, and both must match. -/
def filterMatch (filterLog applog : Applog) : Bool :=
  (filterLog.source == "" || filterLog.source == applog.source) &&
  (filterLog.unit == "" || filterLog.unit == applog.unit)

/-- The forwarding goroutine of NewLogListener (log.go lines 43-60) over the
messages arriving on the subscription channel: a message that fails to
decode is logged and skipped (lines 47-51), a decoded entry is delivered on
the listener channel exactly when the filter matches. decode stands for
json.Unmarshal into Applog. -/
def forwardDeliver (decode : String → Option Applog) (filterLog : Applog) :
    List String → List Applog
  | [] => []
  | msg :: rest =>
    match decode msg with
    | none => forwardDeliver decode filterLog rest
    | some applog =>
      if filterMatch filterLog applog then applog :: forwardDeliver decode filterLog rest
      else forwardDeliver decode filterLog rest

/-- C6: the forwarding goroutine delivers a decoded entry exactly when both
filter fields match, a field matching when the filter field is empty or
equal to the field of the entry; for the filter with Source app and empty Unit, the
filter passes an entry exactly when its Source equals app, regardless of its
Unit. -/
theorem claim6_filter_delivery (decode : String → Option Applog)
    (filterLog : Applog) (msgs : List String) (applog : Applog)
    (hsrc : filterLog.source = "app") (hunit : filterLog.unit = "") :
    (applog ∈ forwardDeliver decode filterLog msgs ↔
      ∃ msg ∈ msgs, decode msg = some applog ∧ filterMatch filterLog applog = true) ∧
    (filterMatch filterLog applog = true ↔ applog.source = "app") := by
  constructor
  · induction msgs with
    | nil => simp [forwardDeliver]
    | cons msg rest ih =>
      rcases hdec : decode msg with _ | b
      · simp only [forwardDeliver, hdec]
        rw [ih]
        constructor
        · rintro ⟨m, hmem, hd, hf⟩
          exact ⟨m, by simp [hmem], hd, hf⟩
        · rintro ⟨m, hmem, hd, hf⟩
          rcases List.mem_cons.mp hmem with hme | hme
          · rw [hme] at hd
            rw [hd] at hdec
            cases hdec
          · exact ⟨m, hme, hd, hf⟩
      · by_cases hfm : filterMatch filterLog b = true
        · simp only [forwardDeliver, hdec, hfm, if_true]
          constructor
          · intro hmem
            rcases List.mem_cons.mp hmem with hme | hme
            · exact ⟨msg, by simp, by rw [hme]; exact hdec, by rw [hme]; exact hfm⟩
            · rcases ih.mp hme with ⟨m, hm, hd, hf⟩
              exact ⟨m, by simp [hm], hd, hf⟩
          · rintro ⟨m, hmem, hd, hf⟩
            rcases List.mem_cons.mp hmem with hme | hme
            · rw [hme] at hd
              rw [hd] at hdec
              cases hdec
              exact List.mem_cons_self applog _
            · exact List.mem_cons_of_mem _ (ih.mpr ⟨m, hme, hd, hf⟩)
        · simp only [forwardDeliver, hdec]
          rw [if_neg hfm, ih]
          constructor
          · rintro ⟨m, hmem, hd, hf⟩
            exact ⟨m, by simp [hmem], hd, hf⟩
          · rintro ⟨m, hmem, hd, hf⟩
            rcases List.mem_cons.mp hmem with hme | hme
            · rw [hme] at hd
              rw [hd] at hdec
              cases hdec
              exact absurd hf hfm
            · exact ⟨m, hme, hd, hf⟩
  · simp [filterMatch, hsrc, hunit]
    constructor
    · intro h
      exact h.symm
    · intro h
      exact h.symm

/-- A filter selecting Source app with no Unit constraint, as in the claim. -/
def appFilter : Applog :=
  { appName := "", source := "app", unit := "", message := "", date := 0 }

/-- A concrete stand-in for json.Unmarshal that decodes one payload. -/
def decodeStub : String → Option Applog :=
  fun s => if s = "good" then some logA else none

/-- Witness for claim6_filter_delivery at a concrete filter, decoder and
message list. -/
theorem claim6_filter_delivery_witness :
    (logA ∈ forwardDeliver decodeStub appFilter ["good", "bad"] ↔
      ∃ msg ∈ ["good", "bad"], decodeStub msg = some logA ∧
        filterMatch appFilter logA = true) ∧
    (filterMatch appFilter logA = true ↔ logA.source = "app") :=
  claim6_filter_delivery decodeStub appFilter ["good", "bad"] logA rfl rfl

/-- Outcome of running a piece of Go code: a normal return or a panic
carrying the panic value. -/
inductive GoOutcome (α : Type) where
  | ret (val : α)
  | panicked (msg : String)
deriving DecidableEq, Repr

/-- Modelled from the spec: the concrete pub/sub transport (queue.PubSubQ)
is outside this repository and is specified only at its interface boundary;
per the spec, Close on an already-closed subscription hits an underlying
double-close failure in UnSub. That failure is modelled as UnSub panicking
on the second call (a closed Go channel being closed again) and returning
nil on the first. -/
def pubSubUnSub (alreadyClosed : Bool) : GoOutcome (Option String) :=
  if alreadyClosed then .panicked "close of closed channel" else .ret none

/-- The deferred recover in LogListener.Close (log.go lines 66-70): a panic
in the body is converted into an error return mentioning a possible double
close; a normal return passes through. -/
def closeRecover (body : GoOutcome (Option String)) : GoOutcome (Option String) :=
  match body with
  | .ret e => .ret e
  | .panicked v =>
    .ret (some ("Recovered panic closing listener (possible double close): " ++ v))

/-- LogListener.Close (log.go lines 65-73): err = l.q.UnSub() guarded by the
deferred recover. -/
def listenerClose (alreadyClosed : Bool) : GoOutcome (Option String) :=
  closeRecover (pubSubUnSub alreadyClosed)

/-- A send on the delivery channel of the listener: panics when the channel is
closed, otherwise delivers. -/
def chanSend (chanClosed : Bool) : GoOutcome Bool :=
  if chanClosed then .panicked "send on closed channel" else .ret true

/-- A delivery attempt by the forwarding goroutine, guarded by the deferred
recover registered before the send (log.go lines 54-57): a panic from
sending is swallowed and the goroutine does not crash. -/
def deliverEntry (chanClosed : Bool) : GoOutcome Bool :=
  match chanSend chanClosed with
  | .ret b => .ret b
  | .panicked _ => .ret false

/-- C8: the first Close returns nil; a second Close on the already-closed
listener hits a real underlying double-close failure (the unguarded UnSub
would panic) yet returns a non-nil error normally - the recover converts the
panic instead of propagating it, and no Close ever panics. Likewise a
delivery attempt on a closed delivery channel would panic unguarded, but the
recover of the forwarding goroutine turns it into a normal (non-delivering)
return, so the forwarding task never crashes. -/
theorem claim8_double_close :
    listenerClose false = GoOutcome.ret none ∧
    listenerClose true = GoOutcome.ret
      (some "Recovered panic closing listener (possible double close): close of closed channel") ∧
    (∀ v, pubSubUnSub true = GoOutcome.panicked v → v = "close of closed channel") ∧
    (∀ b v, listenerClose b ≠ GoOutcome.panicked v) ∧
    (∀ v, chanSend true = GoOutcome.panicked v → v = "send on closed channel") ∧
    (∀ c v, deliverEntry c ≠ GoOutcome.panicked v) := by
  refine ⟨rfl, rfl, ?_, ?_, ?_, ?_⟩
  · intro v hv
    exact (by simpa [pubSubUnSub] using hv : "close of closed channel" = v).symm
  · intro b v
    cases b <;> simp [listenerClose, pubSubUnSub, closeRecover]
  · intro v hv
    exact (by simpa [chanSend] using hv : "send on closed channel" = v).symm
  · intro c v
    cases c <;> simp [deliverEntry, chanSend]

/-- Modelled from the spec: app.InternalAppName is defined elsewhere in the
repository (not under src); per the spec it is the one privileged internal
identity permitted to push logs. Its concrete value is irrelevant to the
claims. -/
def internalAppName : String := "internal"

/-- Whitespace trimming of bytes.TrimSpace (part_000 line 47), on the
characters of the line (ASCII whitespace; the unicode cases of the Go
library function play no role in the claims). -/
def isSpaceChar (c : Char) : Bool := c = ' ' || c = '\t' || c = '\n' || c = '\r'

def trimSpace (s : String) : String :=
  String.mk (((s.toList.dropWhile isSpaceChar).reverse.dropWhile isSpaceChar).reverse)

/-- The error built for an unparsable log line (part_000 line 54,
fmt.Errorf with a quoted copy of the line followed by the json error). -/
def decodeErrMsg (data e : String) : String :=
  "wslogs: parsing log line \"" ++ data ++ "\": " ++ e

/-- Result of the scanner loop of addLogs (part_000 lines 45-64): the
entries passed to dispatcher.Send in order, the operational log records
written for storage-side Send errors, and the decode failure that aborted
the loop, if any. -/
structure ScanOutcome where
  sends : List Applog
  opsLogs : List String
  decodeFailure : Option String
deriving DecidableEq, Repr

/-- The scanner loop of addLogs (part_000 lines 45-64), line by line: trim
the line, skip it when blank, abort with the parse error when it fails to
decode (decode stands for json.Unmarshal), otherwise Send it; a Send error
(sendErr gives the answer of the dispatcher) is logged and the loop continues. -/
def processLines (decode : String → Except String Applog)
    (sendErr : Applog → Option String) : List String → ScanOutcome
  | [] => { sends := [], opsLogs := [], decodeFailure := none }
  | line :: rest =>
    let data := trimSpace line
    if data = "" then processLines decode sendErr rest
    else
      match decode data with
      | .error e =>
        { sends := [], opsLogs := [], decodeFailure := some (decodeErrMsg data e) }
      | .ok entry =>
        let tail := processLines decode sendErr rest
        match sendErr entry with
        | none => { tail with sends := entry :: tail.sends }
        | some se =>
          { tail with
            sends := entry :: tail.sends,
            opsLogs := ("wslogs: error storing log: " ++ se) :: tail.opsLogs }

/-- Observable result of one addLogs connection: the status frames written
back (the error field of each), the entries handed to Dispatcher.Send, the
operational log records, and whether dispatcher.Stop was called. -/
structure WsOutcome where
  frames : List (Option String)
  sends : List Applog
  opsLogs : List String
  stopped : Bool
deriving DecidableEq, Repr

/-- The deferred function of addLogs (part_000 lines 21-32): on every return
path exactly one status frame is written, carrying the final error (or none),
and a non-nil error is also written to the operational log. -/
def wsFinish (sends : List Applog) (ops : List String) (stopped : Bool)
    (err : Option String) : WsOutcome :=
  { frames := [err],
    sends := sends,
    opsLogs :=
      match err with
      | some e => ops ++ [e]
      | none => ops,
    stopped := stopped }

/-- addLogs (part_000 lines 19-75): authentication check against the
privileged identity, then the scanner loop; a decode failure stops the
dispatcher and becomes the final error; otherwise the dispatcher is stopped
at stream end (stopErr is the answer of Stop) and a residual read error
(scanErr, scanner.Err) is reported; every path ends in the single deferred
status frame. -/
def addLogs (decode : String → Except String Applog)
    (sendErr : Applog → Option String) (stopErr : Option String)
    (scanErr : Option String) (tokenApp : Option String)
    (lines : List String) : WsOutcome :=
  match tokenApp with
  | none => wsFinish [] [] false (some "wslogs: no token")
  | some name =>
    if name ≠ internalAppName then
      wsFinish [] [] false
        (some ("wslogs: invalid token app name: \"" ++ name ++ "\""))
    else
      let r := processLines decode sendErr lines
      match r.decodeFailure with
      | some de => wsFinish r.sends r.opsLogs true (some de)
      | none =>
        match stopErr with
        | some se =>
          wsFinish r.sends r.opsLogs true (some ("wslogs: error storing log: " ++ se))
        | none =>
          match scanErr with
          | some sce =>
            wsFinish r.sends r.opsLogs true (some ("wslogs: waiting for log data: " ++ sce))
          | none => wsFinish r.sends r.opsLogs true none

/-- The entries the scanner loop decodes before the first malformed
non-blank line, blanks skipped: the reference value for what addLogs sends. -/
def decodedEntries (decode : String → Except String Applog) :
    List String → List Applog
  | [] => []
  | line :: rest =>
    let data := trimSpace line
    if data = "" then decodedEntries decode rest
    else
      match decode data with
      | .error _ => []
      | .ok entry => entry :: decodedEntries decode rest

lemma processLines_sends (decode : String → Except String Applog)
    (sendErr : Applog → Option String) (lines : List String) :
    (processLines decode sendErr lines).sends = decodedEntries decode lines := by
  induction lines with
  | nil => rfl
  | cons line rest ih =>
    by_cases hb : trimSpace line = ""
    · simp [processLines, decodedEntries, hb, ih]
    · rcases hd : decode (trimSpace line) with e | entry
      · simp [processLines, decodedEntries, hb, hd]
      · rcases hs : sendErr entry with _ | se
        · simp [processLines, decodedEntries, hb, hd, hs, ih]
        · simp [processLines, decodedEntries, hb, hd, hs, ih]

lemma processLines_ops (decode : String → Except String Applog)
    (sendErr : Applog → Option String) (lines : List String)
    (entry : Applog) (se : String) :
    entry ∈ decodedEntries decode lines → sendErr entry = some se →
    ("wslogs: error storing log: " ++ se) ∈ (processLines decode sendErr lines).opsLogs := by
  induction lines with
  | nil => intro h _; cases h
  | cons line rest ih =>
    intro hmem hse
    by_cases hb : trimSpace line = ""
    · rw [decodedEntries] at hmem
      simp only [hb, if_pos rfl] at hmem
      simpa [processLines, hb] using ih (by simpa using hmem) hse
    · rcases hd : decode (trimSpace line) with e | entry2
      · rw [decodedEntries] at hmem
        simp [hb, hd] at hmem
      · rw [decodedEntries] at hmem
        simp only [hb, if_neg hb, hd] at hmem
        rcases List.mem_cons.mp hmem with hme | hme
        · subst hme
          rcases hs : sendErr entry with _ | se2
          · rw [hs] at hse; cases hse
          · rw [hs] at hse
            cases hse
            simp [processLines, hb, hd, hs]
        · have hin := ih hme hse
          rcases hs : sendErr entry2 with _ | se2
          · simpa [processLines, hb, hd, hs] using hin
          · simp [processLines, hb, hd, hs]
            right
            exact hin

lemma addLogs_frames_one (decode : String → Except String Applog)
    (sendErr : Applog → Option String) (stopErr scanErr : Option String)
    (tokenApp : Option String) (lines : List String) :
    (addLogs decode sendErr stopErr scanErr tokenApp lines).frames.length = 1 := by
  rcases tokenApp with _ | name
  · rfl
  · by_cases hn : name ≠ internalAppName
    · simp [addLogs, hn, wsFinish]
    · rcases h1 : (processLines decode sendErr lines).decodeFailure with _ | de
      · rcases stopErr with _ | se
        · rcases scanErr with _ | sce
          · simp [addLogs, hn, h1, wsFinish]
          · simp [addLogs, hn, h1, wsFinish]
        · simp [addLogs, hn, h1, wsFinish]
      · simp [addLogs, hn, h1, wsFinish]

lemma addLogs_internal_eq (decode : String → Except String Applog)
    (sendErr : Applog → Option String) (stopErr scanErr : Option String)
    (lines : List String) :
    addLogs decode sendErr stopErr scanErr (some internalAppName) lines
      = (let r := processLines decode sendErr lines
         match r.decodeFailure with
         | some de => wsFinish r.sends r.opsLogs true (some de)
         | none =>
           match stopErr with
           | some se =>
             wsFinish r.sends r.opsLogs true (some ("wslogs: error storing log: " ++ se))
           | none =>
             match scanErr with
             | some sce =>
               wsFinish r.sends r.opsLogs true (some ("wslogs: waiting for log data: " ++ sce))
             | none => wsFinish r.sends r.opsLogs true none) := by
  simp [addLogs]

lemma addLogs_sends_eq (decode : String → Except String Applog)
    (sendErr : Applog → Option String) (stopErr scanErr : Option String)
    (lines : List String) :
    (addLogs decode sendErr stopErr scanErr (some internalAppName) lines).sends
      = decodedEntries decode lines := by
  rw [addLogs_internal_eq]
  rcases h1 : (processLines decode sendErr lines).decodeFailure with _ | de
  · rcases stopErr with _ | se
    · rcases scanErr with _ | sce
      · simpa [h1, wsFinish] using processLines_sends decode sendErr lines
      · simpa [h1, wsFinish] using processLines_sends decode sendErr lines
    · simpa [h1, wsFinish] using processLines_sends decode sendErr lines
  · simpa [h1, wsFinish] using processLines_sends decode sendErr lines

lemma addLogs_ops_sub (decode : String → Except String Applog)
    (sendErr : Applog → Option String) (stopErr scanErr : Option String)
    (lines : List String) (x : String)
    (hx : x ∈ (processLines decode sendErr lines).opsLogs) :
    x ∈ (addLogs decode sendErr stopErr scanErr (some internalAppName) lines).opsLogs := by
  rw [addLogs_internal_eq]
  rcases h1 : (processLines decode sendErr lines).decodeFailure with _ | de
  · rcases stopErr with _ | se
    · rcases scanErr with _ | sce
      · simpa [h1, wsFinish] using hx
      · simp [h1, wsFinish, List.mem_append]
        left; exact hx
    · simp [h1, wsFinish, List.mem_append]
      left; exact hx
  · simp [h1, wsFinish, List.mem_append]
    left; exact hx

/-- C9: on every connection exactly one final status frame is written (one
frame per return path of addLogs, carrying the final error or none), the
entries handed to Dispatcher.Send are all the decodable non-blank lines up
to a decode failure regardless of which Sends report storage errors (a Send
error never terminates the loop), and every storage-side Send error is
recorded to the operational logs. -/
theorem claim9_send_error_nonfatal (decode : String → Except String Applog)
    (sendErr : Applog → Option String) (stopErr scanErr : Option String)
    (tokenApp : Option String) (lines : List String) (entry : Applog)
    (se : String) :
    (addLogs decode sendErr stopErr scanErr tokenApp lines).frames.length = 1 ∧
    (addLogs decode sendErr stopErr scanErr (some internalAppName) lines).sends
      = decodedEntries decode lines ∧
    (entry ∈ decodedEntries decode lines → sendErr entry = some se →
      ("wslogs: error storing log: " ++ se)
        ∈ (addLogs decode sendErr stopErr scanErr (some internalAppName) lines).opsLogs) := by
  refine ⟨addLogs_frames_one decode sendErr stopErr scanErr tokenApp lines,
    addLogs_sends_eq decode sendErr stopErr scanErr lines, ?_⟩
  intro hmem hse
  exact addLogs_ops_sub decode sendErr stopErr scanErr lines _
    (processLines_ops decode sendErr lines entry se hmem hse)

/-- A concrete stand-in for json.Unmarshal over the wire format: two known
payload lines decode, anything else is a json syntax error. -/
def decodeWs : String → Except String Applog :=
  fun s =>
    if s = "line-a" then .ok logA
    else if s = "line-b" then .ok logB
    else .error "invalid character"

/-- A dispatcher whose Send fails on one particular entry. -/
def sendErrStub : Applog → Option String :=
  fun m => if m = logA then some "db down" else none

/-- Witness for claim9_send_error_nonfatal: two decodable lines around a
blank one, the first Send failing; both entries are still sent and the Send
error is in the operational logs while exactly one frame is written. -/
theorem claim9_send_error_nonfatal_witness :
    (addLogs decodeWs sendErrStub none none (some internalAppName)
        ["line-a", " ", "line-b"]).frames.length = 1 ∧
    (addLogs decodeWs sendErrStub none none (some internalAppName)
        ["line-a", " ", "line-b"]).sends
      = decodedEntries decodeWs ["line-a", " ", "line-b"] ∧
    ("wslogs: error storing log: " ++ "db down")
      ∈ (addLogs decodeWs sendErrStub none none (some internalAppName)
          ["line-a", " ", "line-b"]).opsLogs :=
  have h := claim9_send_error_nonfatal decodeWs sendErrStub none none
    (some internalAppName) ["line-a", " ", "line-b"] logA "db down"
  ⟨h.1, h.2.1, h.2.2 (by decide) (by decide)⟩

/-- C7: a blank line (blank after trimming) is skipped without any effect; a
decode failure in the scanner loop makes addLogs stop the dispatcher and end
the connection with that parse error as the single final frame; when the
very first non-blank line is malformed nothing is ever sent to the
dispatcher (zero entries can reach storage for that connection), the
dispatcher is stopped, and the final frame is the parse error, whose text
embeds the malformed line between the fixed prefix and the json error. -/
theorem claim7_decode_failure (decode : String → Except String Applog)
    (sendErr : Applog → Option String) (stopErr scanErr : Option String) :
    (∀ line rest, trimSpace line = "" →
      addLogs decode sendErr stopErr scanErr (some internalAppName) (line :: rest)
        = addLogs decode sendErr stopErr scanErr (some internalAppName) rest) ∧
    (∀ lines f, (processLines decode sendErr lines).decodeFailure = some f →
      (addLogs decode sendErr stopErr scanErr (some internalAppName) lines).frames
          = [some f] ∧
      (addLogs decode sendErr stopErr scanErr (some internalAppName) lines).stopped
          = true) ∧
    (∀ line e rest, trimSpace line ≠ "" → decode (trimSpace line) = .error e →
      (addLogs decode sendErr stopErr scanErr (some internalAppName) (line :: rest)).sends
          = [] ∧
      (addLogs decode sendErr stopErr scanErr (some internalAppName) (line :: rest)).stopped
          = true ∧
      (addLogs decode sendErr stopErr scanErr (some internalAppName) (line :: rest)).frames
          = [some (decodeErrMsg (trimSpace line) e)]) ∧
    (∀ data err, decodeErrMsg data err
        = "wslogs: parsing log line \"" ++ (data ++ ("\": " ++ err))) := by
  have hfail : ∀ lines f, (processLines decode sendErr lines).decodeFailure = some f →
      (addLogs decode sendErr stopErr scanErr (some internalAppName) lines).frames
          = [some f] ∧
      (addLogs decode sendErr stopErr scanErr (some internalAppName) lines).stopped
          = true := by
    intro lines f h1
    rw [addLogs_internal_eq]
    simp [h1, wsFinish]
  refine ⟨?_, hfail, ?_, ?_⟩
  · intro line rest hb
    rw [addLogs_internal_eq, addLogs_internal_eq]
    have : processLines decode sendErr (line :: rest) = processLines decode sendErr rest := by
      simp [processLines, hb]
    rw [this]
  · intro line e rest hb hd
    have hpl : processLines decode sendErr (line :: rest)
        = { sends := [], opsLogs := [],
            decodeFailure := some (decodeErrMsg (trimSpace line) e) } := by
      simp [processLines, hb, hd]
    refine ⟨?_, (hfail (line :: rest) _ (by rw [hpl])).2,
      (hfail (line :: rest) _ (by rw [hpl])).1⟩
    rw [addLogs_internal_eq]
    simp [hpl, wsFinish]
  · intro data err
    simp [decodeErrMsg, String.append_assoc]

/-- Witness for claim7_decode_failure: the single-line input not-json (which
fails to decode) yields zero sent entries, a stopped dispatcher, and one
final error frame whose text contains the malformed line. -/
theorem claim7_decode_failure_witness :
    (addLogs decodeWs sendErrStub none none (some internalAppName) ["not-json"]).sends
        = [] ∧
    (addLogs decodeWs sendErrStub none none (some internalAppName) ["not-json"]).stopped
        = true ∧
    (addLogs decodeWs sendErrStub none none (some internalAppName) ["not-json"]).frames
        = [some (decodeErrMsg (trimSpace "not-json") "invalid character")] ∧
    decodeErrMsg "not-json" "invalid character"
        = "wslogs: parsing log line \"" ++ ("not-json" ++ ("\": " ++ "invalid character")) :=
  have h := claim7_decode_failure decodeWs sendErrStub none none
  have h3 := h.2.2.1 "not-json" "invalid character" [] (by decide) rfl
  ⟨h3.1, h3.2.1, h3.2.2, h.2.2.2 "not-json" "invalid character"⟩

/-- Witness for claim8_double_close at concrete closed states: the second
Close returns the recovered error normally, and delivery into a closed
channel does not panic the forwarding goroutine. -/
theorem claim8_double_close_witness :
    listenerClose false = GoOutcome.ret none ∧
    listenerClose true = GoOutcome.ret
      (some "Recovered panic closing listener (possible double close): close of closed channel") ∧
    listenerClose true ≠ GoOutcome.panicked "close of closed channel" ∧
    deliverEntry true ≠ GoOutcome.panicked "send on closed channel" :=
  have h := claim8_double_close
  ⟨h.1, h.2.1, h.2.2.2.1 true "close of closed channel",
    h.2.2.2.2.2 true "send on closed channel"⟩
